import Mathlib

/-!
Shallow embedding of the conversion logic of src/media_convert.py
(class ConversionThread, method run, lines 22-72).

The Python method does, in one try/except block:
  1. probe the input file and read its duration (lines 25-26),
  2. build the ffmpeg output-argument dictionary from the requested
     format, bitrates and resolution (lines 32-52), raising ValueError
     for an unsupported format,
  3. start the external transcode and scan its stderr line by line,
     emitting a progress signal for each "out_time_ms=<v>" line
     (lines 57-68),
  4. emit finished(True, "Conversion successful") when the loop ends,
     or finished(False, str(e)) when any exception was raised
     (lines 70-72).

Machine reals (Python floats) are modelled as exact rationals; Python
str.split/str.strip/float()/int() are modelled on the ASCII decimal
fragment that the diagnostic stream and the GUI inputs use.  The
external world (probe result, stderr lines, exit status) is an explicit
environment, and the run method becomes a function from request and
environment to the list of observable events.
-/

/-- Splitting a character list at every occurrence of a separator
character, keeping empty groups: the List-level model of Python
str.split with a one-character separator. -/
def splitOnChar (c : Char) : List Char → List (List Char)
  | [] => [[]]
  | a :: as =>
    match splitOnChar c as with
    | [] => [[a]]
    | g :: gs => if a = c then [] :: g :: gs else (a :: g) :: gs

/-- Model of Python s.split(c) for a single-character separator c. -/
def pySplit (s : String) (c : Char) : List String :=
  (splitOnChar c s.data).map fun l => ⟨l⟩

/-- ASCII whitespace recognised by Python str.strip. -/
def isPySpace (c : Char) : Bool :=
  c = ' ' || c = '\t' || c = '\n' || c = '\r' || c = '\x0b' || c = '\x0c'

/-- Model of Python s.strip() on ASCII input. -/
def pyStrip (s : String) : String :=
  ⟨((s.data.dropWhile isPySpace).reverse.dropWhile isPySpace).reverse⟩

/-- Value of a digit string, most significant digit first. -/
def digitsVal (l : List Char) : ℕ :=
  l.foldl (fun a c => 10 * a + (c.toNat - 48)) 0

/-- All characters are decimal digits. -/
def allDigits (l : List Char) : Bool := l.all Char.isDigit

/-- Unsigned part of Python float() on a decimal literal:
digits, optionally with a decimal point; at least one digit. -/
def pyFloatCore? (l : List Char) : Option ℚ :=
  match splitOnChar '.' l with
  | [ip] => if ip ≠ [] ∧ allDigits ip then some (digitsVal ip) else none
  | [ip, fp] =>
    if (ip ≠ [] ∨ fp ≠ []) ∧ allDigits ip ∧ allDigits fp then
      some ((digitsVal ip : ℚ) + (digitsVal fp : ℚ) / (10 ^ fp.length))
    else none
  | _ => none

/-- Model of Python float(s) on the decimal literals (optional sign,
digits, optional fraction) that the diagnostic stream carries; any
other string fails, as float() does on e.g. "N/A". -/
def pyFloat? (s : String) : Option ℚ :=
  match s.data with
  | '-' :: rest => (pyFloatCore? rest).map (fun q => -q)
  | '+' :: rest => pyFloatCore? rest
  | l => pyFloatCore? l

/-- Model of Python int(s) on decimal literals with an optional sign. -/
def pyIntStr? (s : String) : Option ℤ :=
  match s.data with
  | '-' :: rest =>
    if rest ≠ [] ∧ allDigits rest then some (-(digitsVal rest : ℤ)) else none
  | '+' :: rest =>
    if rest ≠ [] ∧ allDigits rest then some (digitsVal rest : ℤ) else none
  | l => if l ≠ [] ∧ allDigits l then some (digitsVal l : ℤ) else none

/-- Model of Python int(x) on a real x: truncation toward zero. -/
def pyInt (q : ℚ) : ℤ := q.num.tdiv q.den

/-- Python truthiness of the optional string fields of the request:
None and the empty string are falsy. -/
def pyTruthy : Option String → Bool
  | none => false
  | some s => s ≠ ""

instance {α β : Type} [DecidableEq α] [DecidableEq β] : DecidableEq (Except α β)
  | Except.ok a, Except.ok b => decidable_of_iff (a = b) (by simp)
  | Except.ok _, Except.error _ => Decidable.isFalse (by simp)
  | Except.error _, Except.ok _ => Decidable.isFalse (by simp)
  | Except.error d, Except.error e => decidable_of_iff (d = e) (by simp)

/-- The constructor arguments of ConversionThread (line 13). -/
structure ConversionRequest where
  input_file : String
  output_file : String
  output_format : String
  video_bitrate : Option String
  audio_bitrate : Option String
  resolution : Option String
deriving DecidableEq

/-- The video-format list of lines 33, 37, 42. -/
def VIDEO_FORMATS : List String := ["mp4", "avi", "mkv", "webm", "mov", "flv"]

/-- The audio-format list of line 44. -/
def AUDIO_FORMATS : List String := ["mp3", "wav", "flac", "ogg", "aac"]

/-- The output_args dictionary of lines 32-52; the record fields are the
keys the method can put into it, a none field meaning the key is absent. -/
structure OutputArgs where
  video_bitrate : Option String := none
  audio_bitrate : Option String := none
  vf : Option String := none
  vcodec : Option String := none
  acodec : Option String := none
deriving DecidableEq

/-- Line 38: width, height = map(int, self.resolution.split('x')).
Fails (raises in Python) unless the string is exactly two
int()-parseable parts joined by 'x'. -/
def parseResolution (s : String) : Option (ℤ × ℤ) :=
  match pySplit s 'x' with
  | [w, h] =>
    match pyIntStr? w, pyIntStr? h with
    | some a, some b => some (a, b)
    | _, _ => none
  | _ => none

/-- Lines 33-39: the bitrate and resolution arguments.  The dictionary
after line 39, or the exception raised by the resolution parse of
line 38. -/
def baseArgs (req : ConversionRequest) : Except String OutputArgs :=
  let a1 : OutputArgs :=
    if pyTruthy req.video_bitrate = true ∧ req.output_format ∈ VIDEO_FORMATS then
      { video_bitrate := req.video_bitrate }
    else {}
  let a2 : OutputArgs :=
    if pyTruthy req.audio_bitrate = true then
      { a1 with audio_bitrate := req.audio_bitrate }
    else a1
  if pyTruthy req.resolution = true ∧ req.output_format ∈ VIDEO_FORMATS then
    match parseResolution (req.resolution.getD "") with
    | some wh =>
      Except.ok { a2 with vf := some ("scale=" ++ toString wh.1 ++ ":" ++ toString wh.2) }
    | none => Except.error ("invalid resolution: " ++ req.resolution.getD "")
  else Except.ok a2

/-- Lines 42-52: the codec arguments for the requested format, or the
ValueError of line 52 for an unsupported format. -/
def applyCodecs (fmt : String) (a3 : OutputArgs) : Except String OutputArgs :=
  if fmt ∈ VIDEO_FORMATS then
    Except.ok { a3 with vcodec := some "libx264", acodec := some "aac" }
  else if fmt ∈ AUDIO_FORMATS then
    if fmt = "mp3" then Except.ok { a3 with acodec := some "libmp3lame" }
    else if fmt = "ogg" then Except.ok { a3 with acodec := some "libvorbis" }
    else if fmt = "aac" then Except.ok { a3 with acodec := some "aac" }
    else Except.ok a3
  else Except.error ("Unsupported output format: " ++ fmt)

/-- Lines 32-52: building output_args from the request.  An exception
raised while building (bad resolution string at line 38, or the
ValueError at line 52 for an unsupported format) is the error case. -/
def resolveArgs (req : ConversionRequest) : Except String OutputArgs :=
  match baseArgs req with
  | Except.error e => Except.error e
  | Except.ok a3 => applyCodecs req.output_format a3

/-- The audio codec chosen by the per-format lookup of lines 44-50:
mp3 and ogg and aac get explicit codecs, other audio formats keep the
container default (no acodec key). -/
def audioCodecFor (fmt : String) : Option String :=
  if fmt = "mp3" then some "libmp3lame"
  else if fmt = "ogg" then some "libvorbis"
  else if fmt = "aac" then some "aac"
  else none

/-- The resolved argument set when resolution succeeded, projected to one
field; some o means resolution succeeded and produced field value o. -/
def resolvedVcodec (req : ConversionRequest) : Option (Option String) :=
  (resolveArgs req).toOption.map OutputArgs.vcodec

/-- Resolved acodec field, when resolution succeeded. -/
def resolvedAcodec (req : ConversionRequest) : Option (Option String) :=
  (resolveArgs req).toOption.map OutputArgs.acodec

/-- Resolved vf (scale filter) field, when resolution succeeded. -/
def resolvedVf (req : ConversionRequest) : Option (Option String) :=
  (resolveArgs req).toOption.map OutputArgs.vf

/-- Line 67: the progress value computed from a parsed out_time_ms value
v (microseconds) and the probed duration: min(int(v/1000000/duration*100), 100). -/
def toProgress (duration v : ℚ) : ℤ :=
  min (pyInt (v / 1000000 / duration * 100)) 100

/-- Lines 63-65: the check "if output:", the split on '=', the
two-parts check and the key comparison; returns the stripped value
string of an elapsed-time line, none when the line is ignored. -/
def lineKeyVal (line : String) : Option String :=
  if line = "" then none
  else
    match pySplit line '=' with
    | [p0, p1] => if pyStrip p0 = "out_time_ms" then some (pyStrip p1) else none
    | _ => none

/-- Lines 63-68, one stderr line: recognise the elapsed-time key=value
shape, parse the value with float() (error case: ValueError from float,
or ZeroDivisionError when the duration is zero), and compute the
progress value; ok none means the line is ignored. -/
def lineProgress (duration : ℚ) (line : String) : Except String (Option ℤ) :=
  match lineKeyVal line with
  | none => Except.ok none
  | some valStr =>
    match pyFloat? valStr with
    | some v =>
      if duration = 0 then Except.error "float division by zero"
      else Except.ok (some (toProgress duration v))
    | none => Except.error ("could not convert string to float: " ++ valStr)

/-- The parsed out_time_ms value of a line, when the line has the
key=value shape with the elapsed-time key and a parseable value. -/
def lineVal? (line : String) : Option ℚ :=
  (lineKeyVal line).bind pyFloat?

/-- The read loop of lines 59-68 over the (already decoded) stderr lines:
returns the emitted progress values in order, and the exception message
when a line raised, which aborts the loop. -/
def consumeLines (duration : ℚ) : List String → List ℤ × Option String
  | [] => ([], none)
  | l :: ls =>
    match lineProgress duration l with
    | Except.error e => ([], some e)
    | Except.ok none => consumeLines duration ls
    | Except.ok (some p) =>
      let r := consumeLines duration ls
      (p :: r.1, r.2)

/-- Observable events of one run: the two external-process launches
(ffmpeg.probe at line 25, ffmpeg.run_async at line 57) and the two Qt
signals (progress at line 68, finished at lines 70 and 72). -/
inductive Event where
  | probeStart : Event
  | transcodeStart : Event
  | progress : ℤ → Event
  | finished : Bool → String → Event
deriving DecidableEq

/-- The environment a run observes: the probe outcome (duration, or the
message of the exception raised at lines 25-26), the stderr lines read
before end-of-stream, and the exit status of the transcode process. -/
structure Env where
  probe : Except String ℚ
  lines : List String
  exitCode : ℤ

/-- ConversionThread.run (lines 22-72): probe, build arguments, run the
transcode reading its stderr, and emit exactly one finished signal;
every exception is caught by the except clause at line 71 and becomes
finished(False, str(e)).  The exit status of the transcode process is
never consulted. -/
def runThread (req : ConversionRequest) (env : Env) : List Event :=
  match env.probe with
  | Except.error e => [Event.probeStart, Event.finished false e]
  | Except.ok duration =>
    match resolveArgs req with
    | Except.error e => [Event.probeStart, Event.finished false e]
    | Except.ok _ =>
      let r := consumeLines duration env.lines
      match r.2 with
      | some e =>
        Event.probeStart :: Event.transcodeStart ::
          (r.1.map Event.progress ++ [Event.finished false e])
      | none =>
        Event.probeStart :: Event.transcodeStart ::
          (r.1.map Event.progress ++ [Event.finished true "Conversion successful"])

/-- The Qt signals of a run, in emission order (the notifications the
GUI receives). -/
inductive Sig where
  | progress : ℤ → Sig
  | finished : Bool → String → Sig
deriving DecidableEq

/-- Which events are signal emissions. -/
def sigOf : Event → Option Sig
  | Event.progress p => some (Sig.progress p)
  | Event.finished b m => some (Sig.finished b m)
  | Event.probeStart => none
  | Event.transcodeStart => none

/-- The signal trace of one run. -/
def runSignals (req : ConversionRequest) (env : Env) : List Sig :=
  (runThread req env).filterMap sigOf

/-- Number of finished signals in an event trace. -/
def finishedCount (t : List Event) : ℕ :=
  t.countP fun e => match e with | Event.finished _ _ => true | _ => false

/-- The progress values of an event trace, in order. -/
def progressVals (t : List Event) : List ℤ :=
  t.filterMap fun e => match e with | Event.progress p => some p | _ => none

/-- A concrete video request (mp4, no optional fields). -/
def reqMp4 : ConversionRequest :=
  ConversionRequest.mk "input.avi" "output.mp4" "mp4" none none none

/-- A concrete audio request (mp3, no optional fields). -/
def reqMp3 : ConversionRequest :=
  ConversionRequest.mk "input.wav" "output.mp3" "mp3" none none none

/-- A concrete audio request (aac, no optional fields). -/
def reqAac : ConversionRequest :=
  ConversionRequest.mk "input.wav" "output.aac" "aac" none none none

/-- A concrete audio request (wav, with an audio bitrate). -/
def reqWav : ConversionRequest :=
  ConversionRequest.mk "input.mp3" "output.wav" "wav" none (some "192k") none

/-- A concrete request with an unsupported format. -/
def reqXyz : ConversionRequest :=
  ConversionRequest.mk "input.avi" "output.xyz" "xyz" none none none

/-- A concrete audio request that also supplies the video-only fields
and an audio bitrate. -/
def reqMp3Opts : ConversionRequest :=
  ConversionRequest.mk "input.wav" "output.mp3" "mp3"
    (some "5M") (some "192k") (some "1280x720")

/-- Python int() truncation agrees with the floor on nonnegative input. -/
theorem pyInt_eq_floor (q : ℚ) (h : 0 ≤ q) : pyInt q = ⌊q⌋ := by
  obtain ⟨m, hm⟩ := Int.eq_ofNat_of_zero_le (Rat.num_nonneg.mpr h)
  rw [pyInt, Rat.floor_def, hm]
  rfl

/-- Evaluation rule for lineProgress on a matching line. -/
theorem lineProgress_eval (d : ℚ) (line valStr : String) (v : ℚ) (p : ℤ)
    (h1 : lineKeyVal line = some valStr) (h3 : pyFloat? valStr = some v)
    (h4 : d ≠ 0) (h5 : toProgress d v = p) :
    lineProgress d line = Except.ok (some p) := by
  rw [lineProgress, h1]
  simp [h3, h4, h5]

/-- Evaluation rule for lineProgress on a matching line whose value does
not parse as a float. -/
theorem lineProgress_eval_err (d : ℚ) (line valStr : String)
    (h1 : lineKeyVal line = some valStr) (h3 : pyFloat? valStr = none) :
    lineProgress d line = Except.error ("could not convert string to float: " ++ valStr) := by
  rw [lineProgress, h1]
  simp [h3]

/-- A line with a parsed value yields exactly the computed progress,
provided the duration is nonzero. -/
theorem lineProgress_of_val (d : ℚ) (hd : d ≠ 0) (line : String) (v : ℚ)
    (h : lineVal? line = some v) :
    lineProgress d line = Except.ok (some (toProgress d v)) := by
  rw [lineVal?] at h
  obtain ⟨s, hs, hv⟩ := Option.bind_eq_some.mp h
  rw [lineProgress, hs]
  simp [hv, hd]

/-- A line with no parsed value is either ignored or raises; it never
emits progress. -/
theorem lineProgress_of_no_val (d : ℚ) (line : String)
    (h : lineVal? line = none) :
    lineProgress d line = Except.ok none ∨ ∃ e, lineProgress d line = Except.error e := by
  rw [lineVal?] at h
  rw [lineProgress]
  match hs : lineKeyVal line with
  | none => left; rfl
  | some s =>
    rw [hs, Option.some_bind] at h
    right
    refine ⟨"could not convert string to float: " ++ s, ?_⟩
    simp [h]

/-- The progress values of the read loop are the images under toProgress
of an initial run of the parsed out_time_ms values of the stream (a
prefix, because a raising line aborts the loop). -/
theorem consumeLines_sub (d : ℚ) (hd : d ≠ 0) :
    ∀ ls : List String, ∃ pre, List.Sublist pre (ls.filterMap lineVal?) ∧
      (consumeLines d ls).1 = pre.map (toProgress d)
  | [] => ⟨[], by simp [consumeLines]⟩
  | l :: ls => by
    obtain ⟨pre, hsub, hout⟩ := consumeLines_sub d hd ls
    match hv : lineVal? l with
    | some v =>
      refine ⟨v :: pre, ?_, ?_⟩
      · simpa [List.filterMap_cons, hv] using List.Sublist.cons₂ v hsub
      · rw [consumeLines, lineProgress_of_val d hd l v hv]
        simp [hout]
    | none =>
      rcases lineProgress_of_no_val d l hv with hok | ⟨e, herr⟩
      · refine ⟨pre, ?_, ?_⟩
        · simpa [List.filterMap_cons, hv] using hsub
        · rw [consumeLines, hok]
          exact hout
      · refine ⟨[], by simp, ?_⟩
        rw [consumeLines, herr]
        rfl

/-- Every computed progress value is clamped to at most 100. -/
theorem toProgress_le_100 (d v : ℚ) : toProgress d v ≤ 100 :=
  min_le_right _ _

/-- For a positive duration and a nonnegative elapsed value the computed
progress value is nonnegative. -/
theorem toProgress_nonneg (d v : ℚ) (hd : 0 < d) (hv : 0 ≤ v) :
    0 ≤ toProgress d v := by
  have hx : (0:ℚ) ≤ v / 1000000 / d * 100 := by positivity
  rw [toProgress, pyInt_eq_floor _ hx]
  exact le_min (Int.floor_nonneg.mpr hx) (by norm_num)

/-- For a positive duration, toProgress is monotone on nonnegative
elapsed values. -/
theorem toProgress_mono (d : ℚ) (hd : 0 < d) (v w : ℚ) (hv : 0 ≤ v)
    (hvw : v ≤ w) : toProgress d v ≤ toProgress d w := by
  have hx : (0:ℚ) ≤ v / 1000000 / d * 100 := by positivity
  have hy : v / 1000000 / d * 100 ≤ w / 1000000 / d * 100 := by gcongr
  rw [toProgress, toProgress, pyInt_eq_floor _ hx, pyInt_eq_floor _ (hx.trans hy)]
  exact min_le_min (Int.floor_mono hy) le_rfl

/-- Mapping toProgress over a non-decreasing list of nonnegative values
gives a non-decreasing list. -/
theorem chain_map_toProgress (d : ℚ) (hd : 0 < d) :
    ∀ l : List ℚ, List.Chain' (· ≤ ·) l → (∀ v ∈ l, 0 ≤ v) →
      List.Chain' (· ≤ ·) (l.map (toProgress d))
  | [], _, _ => List.chain'_nil
  | [_], _, _ => by simp
  | v :: w :: t, hc, hp => by
    rw [List.map_cons, List.map_cons, List.chain'_cons]
    rw [List.chain'_cons] at hc
    refine ⟨toProgress_mono d hd v w (hp v (by simp)) hc.1, ?_⟩
    rw [← List.map_cons]
    exact chain_map_toProgress d hd (w :: t) hc.2
      (fun x hx => hp x (List.mem_cons_of_mem _ hx))

/-- Extracting progress values from a pure progress-event list. -/
theorem filterMap_progress (l : List ℤ) :
    List.filterMap ((fun e => match e with | Event.progress p => some p | _ => none) ∘
      Event.progress) l = l := by
  induction l with
  | nil => rfl
  | cons a t ih => simpa [List.filterMap_cons, Function.comp] using ih

/-- Extracting signals from a pure progress-event list. -/
theorem filterMap_sigOf_progress (l : List ℤ) :
    List.filterMap (sigOf ∘ Event.progress) l = List.map Sig.progress l := by
  induction l with
  | nil => rfl
  | cons a t ih => simpa [List.filterMap_cons, Function.comp, sigOf] using ih

/-- The progress values of a run are empty (probe or resolution failed)
or exactly the values of the read loop. -/
theorem progressVals_run (req : ConversionRequest) (env : Env) :
    progressVals (runThread req env) = [] ∨
      ∃ d, env.probe = Except.ok d ∧
        progressVals (runThread req env) = (consumeLines d env.lines).1 := by
  rw [runThread]
  match env.probe with
  | Except.error e => left; simp [progressVals]
  | Except.ok d =>
    match resolveArgs req with
    | Except.error e => left; simp [progressVals]
    | Except.ok args =>
      right
      refine ⟨d, rfl, ?_⟩
      match h2 : (consumeLines d env.lines).2 with
      | some e =>
        simp [progressVals, h2, List.filterMap_cons, List.filterMap_append,
          filterMap_progress]
      | none =>
        simp [progressVals, h2, List.filterMap_cons, List.filterMap_append,
          filterMap_progress]

/-- The signal trace of any run is zero or more progress signals
followed by exactly one finished signal. -/
theorem runSignals_shape (req : ConversionRequest) (env : Env) :
    ∃ (ps : List ℤ) (s : Bool) (m : String),
      runSignals req env = List.map Sig.progress ps ++ [Sig.finished s m] := by
  rw [runSignals, runThread]
  match env.probe with
  | Except.error e =>
    exact ⟨[], false, e, by simp [sigOf]⟩
  | Except.ok d =>
    match resolveArgs req with
    | Except.error e =>
      exact ⟨[], false, e, by simp [sigOf]⟩
    | Except.ok args =>
      match h2 : (consumeLines d env.lines).2 with
      | some e =>
        refine ⟨(consumeLines d env.lines).1, false, e, ?_⟩
        simp [sigOf, h2, List.filterMap_cons, List.filterMap_append,
          filterMap_sigOf_progress]
      | none =>
        refine ⟨(consumeLines d env.lines).1, true, "Conversion successful", ?_⟩
        simp [sigOf, h2, List.filterMap_cons, List.filterMap_append,
          filterMap_sigOf_progress]

/-- For a non-video target format the bitrate and resolution step only
keeps the audio bitrate: no video bitrate, no scale filter, and no
exception. -/
theorem baseArgs_nonvideo (req : ConversionRequest)
    (h : req.output_format ∉ VIDEO_FORMATS) :
    baseArgs req = Except.ok
      { audio_bitrate :=
          if pyTruthy req.audio_bitrate = true then req.audio_bitrate else none } := by
  have h1 : ¬(pyTruthy req.video_bitrate = true ∧ req.output_format ∈ VIDEO_FORMATS) :=
    fun hc => h hc.2
  have h3 : ¬(pyTruthy req.resolution = true ∧ req.output_format ∈ VIDEO_FORMATS) :=
    fun hc => h hc.2
  by_cases h2 : pyTruthy req.audio_bitrate = true <;>
    simp [baseArgs, h1, h2, h3]

/-- Audio formats are never video formats. -/
theorem audio_not_video (fmt : String) (h : fmt ∈ AUDIO_FORMATS) :
    fmt ∉ VIDEO_FORMATS := by
  rcases (by simpa [AUDIO_FORMATS] using h : fmt = "mp3" ∨ fmt = "wav" ∨ fmt = "flac" ∨
    fmt = "ogg" ∨ fmt = "aac") with h' | h' | h' | h' | h' <;>
    simp [VIDEO_FORMATS, h']

/-- For an audio target format the resolved argument set is exactly the
optional audio bitrate plus the per-format codec lookup: no video
codec, no video bitrate, no scale filter, and resolution always
succeeds. -/
theorem resolveArgs_audio (req : ConversionRequest)
    (h : req.output_format ∈ AUDIO_FORMATS) :
    resolveArgs req = Except.ok
      { audio_bitrate :=
          if pyTruthy req.audio_bitrate = true then req.audio_bitrate else none,
        acodec := audioCodecFor req.output_format } := by
  have hv := audio_not_video req.output_format h
  rw [resolveArgs, baseArgs_nonvideo req hv]
  show applyCodecs req.output_format _ = _
  rw [applyCodecs, if_neg hv, if_pos h]
  by_cases e1 : req.output_format = "mp3" <;>
    by_cases e2 : req.output_format = "ogg" <;>
      by_cases e3 : req.output_format = "aac" <;>
        simp [audioCodecFor, e1, e2, e3]

/-- Whenever argument resolution succeeds for a video format, both the
fixed video codec and the fixed audio codec are set. -/
theorem resolveArgs_video_fields (req : ConversionRequest) (args : OutputArgs)
    (hv : req.output_format ∈ VIDEO_FORMATS)
    (h : resolveArgs req = Except.ok args) :
    args.vcodec = some "libx264" ∧ args.acodec = some "aac" := by
  rw [resolveArgs] at h
  match hb : baseArgs req with
  | Except.error e => simp [hb] at h
  | Except.ok a3 =>
    rw [hb] at h
    simp only [] at h
    rw [applyCodecs, if_pos hv] at h
    simp only [Except.ok.injEq] at h
    rw [← h]
    exact ⟨rfl, rfl⟩

/-- The codec step never touches the audio bitrate. -/
theorem applyCodecs_audio_bitrate (fmt : String) (a3 args : OutputArgs)
    (h : applyCodecs fmt a3 = Except.ok args) :
    args.audio_bitrate = a3.audio_bitrate := by
  rw [applyCodecs] at h
  by_cases d1 : fmt ∈ VIDEO_FORMATS
  · rw [if_pos d1] at h
    simp only [Except.ok.injEq] at h
    rw [← h]
  · rw [if_neg d1] at h
    by_cases d2 : fmt ∈ AUDIO_FORMATS
    · rw [if_pos d2] at h
      by_cases e1 : fmt = "mp3"
      · rw [if_pos e1] at h
        simp only [Except.ok.injEq] at h
        rw [← h]
      · rw [if_neg e1] at h
        by_cases e2 : fmt = "ogg"
        · rw [if_pos e2] at h
          simp only [Except.ok.injEq] at h
          rw [← h]
        · rw [if_neg e2] at h
          by_cases e3 : fmt = "aac"
          · rw [if_pos e3] at h
            simp only [Except.ok.injEq] at h
            rw [← h]
          · rw [if_neg e3] at h
            simp only [Except.ok.injEq] at h
            rw [← h]
    · rw [if_neg d2] at h
      simp at h

/-- The bitrate and resolution step records the audio bitrate exactly
when it is truthy. -/
theorem baseArgs_audio_bitrate (req : ConversionRequest) (a : OutputArgs)
    (h : baseArgs req = Except.ok a) :
    a.audio_bitrate =
      (if pyTruthy req.audio_bitrate = true then req.audio_bitrate else none) := by
  rw [baseArgs] at h
  by_cases h3 : pyTruthy req.resolution = true ∧ req.output_format ∈ VIDEO_FORMATS
  · rw [if_pos h3] at h
    match hp : parseResolution (req.resolution.getD "") with
    | some wh =>
      rw [hp] at h
      simp only [Except.ok.injEq] at h
      rw [← h]
      by_cases h2 : pyTruthy req.audio_bitrate = true <;>
        by_cases h1 : pyTruthy req.video_bitrate = true ∧
          req.output_format ∈ VIDEO_FORMATS <;>
          simp [h1, h2]
    | none => rw [hp] at h; simp at h
  · rw [if_neg h3] at h
    simp only [Except.ok.injEq] at h
    rw [← h]
    by_cases h2 : pyTruthy req.audio_bitrate = true <;>
      by_cases h1 : pyTruthy req.video_bitrate = true ∧
        req.output_format ∈ VIDEO_FORMATS <;>
        simp [h1, h2]

/-- Whenever argument resolution succeeds the audio bitrate is included
exactly when it was supplied (and truthy). -/
theorem resolveArgs_audio_bitrate (req : ConversionRequest) (args : OutputArgs)
    (h : resolveArgs req = Except.ok args) :
    args.audio_bitrate =
      (if pyTruthy req.audio_bitrate = true then req.audio_bitrate else none) := by
  rw [resolveArgs] at h
  match hb : baseArgs req with
  | Except.error e => simp [hb] at h
  | Except.ok a3 =>
    rw [hb] at h
    simp only [] at h
    rw [applyCodecs_audio_bitrate req.output_format a3 args h]
    exact baseArgs_audio_bitrate req a3 hb

/-- An unsupported target format makes resolution fail with the
ValueError message of line 52, whatever the optional fields are. -/
theorem resolveArgs_unsupported (req : ConversionRequest)
    (h1 : req.output_format ∉ VIDEO_FORMATS)
    (h2 : req.output_format ∉ AUDIO_FORMATS) :
    resolveArgs req =
      Except.error ("Unsupported output format: " ++ req.output_format) := by
  rw [resolveArgs, baseArgs_nonvideo req h1]
  show applyCodecs req.output_format _ = _
  rw [applyCodecs, if_neg h1, if_neg h2]

/-- A failed probe yields exactly the probe-failure trace. -/
theorem runThread_probe_error (req : ConversionRequest) (env : Env) (e : String)
    (h : env.probe = Except.error e) :
    runThread req env = [Event.probeStart, Event.finished false e] := by
  rw [runThread, h]

/-- A failed resolution yields exactly the resolution-failure trace. -/
theorem runThread_resolve_error (req : ConversionRequest) (env : Env)
    (d : ℚ) (e : String) (hp : env.probe = Except.ok d)
    (hr : resolveArgs req = Except.error e) :
    runThread req env = [Event.probeStart, Event.finished false e] := by
  rw [runThread, hp, hr]

/-- A run whose read loop ends without an exception emits its progress
values and then the success signal. -/
theorem runThread_ok_success (req : ConversionRequest) (env : Env)
    (d : ℚ) (args : OutputArgs) (hp : env.probe = Except.ok d)
    (hr : resolveArgs req = Except.ok args)
    (hc : (consumeLines d env.lines).2 = none) :
    runThread req env = Event.probeStart :: Event.transcodeStart ::
      ((consumeLines d env.lines).1.map Event.progress ++
        [Event.finished true "Conversion successful"]) := by
  rw [runThread, hp, hr]
  simp only [hc]

/-- A run whose read loop raises emits the progress values before the
bad line and then the failure signal with the exception's message. -/
theorem runThread_ok_failure (req : ConversionRequest) (env : Env)
    (d : ℚ) (args : OutputArgs) (e : String) (hp : env.probe = Except.ok d)
    (hr : resolveArgs req = Except.ok args)
    (hc : (consumeLines d env.lines).2 = some e) :
    runThread req env = Event.probeStart :: Event.transcodeStart ::
      ((consumeLines d env.lines).1.map Event.progress ++
        [Event.finished false e]) := by
  rw [runThread, hp, hr]
  simp only [hc]

/-- Finished signals are never emitted by the progress part of a trace. -/
theorem countP_finished_map (l : List ℤ) :
    List.countP ((fun e => match e with | Event.finished _ _ => true | _ => false) ∘
      Event.progress) l = 0 := by
  induction l with
  | nil => rfl
  | cons a t ih => simp [List.countP_cons, Function.comp, ih]

/-- Every run emits exactly one finished signal. -/
theorem finishedCount_run (req : ConversionRequest) (env : Env) :
    finishedCount (runThread req env) = 1 := by
  rw [runThread]
  match env.probe with
  | Except.error e => simp [finishedCount, List.countP_cons]
  | Except.ok d =>
    match resolveArgs req with
    | Except.error e => simp [finishedCount, List.countP_cons]
    | Except.ok args =>
      match h2 : (consumeLines d env.lines).2 with
      | some e =>
        simp [finishedCount, h2, List.countP_cons, List.countP_append,
          countP_finished_map]
      | none =>
        simp [finishedCount, h2, List.countP_cons, List.countP_append,
          countP_finished_map]

/-- The last event of a trace that ends in a one-element tail. -/
theorem getLast_cons_cons_concat (a b : Event) (l : List Event) (c : Event) :
    (a :: b :: (l ++ [c])).getLast? = some c := by
  rw [show a :: b :: (l ++ [c]) = (a :: b :: l) ++ [c] by simp]
  exact List.getLast?_concat _

/-- Every run ends with a finished signal. -/
theorem runThread_last (req : ConversionRequest) (env : Env) :
    ∃ (s : Bool) (m : String),
      (runThread req env).getLast? = some (Event.finished s m) := by
  rw [runThread]
  match env.probe with
  | Except.error e => exact ⟨false, e, rfl⟩
  | Except.ok d =>
    match resolveArgs req with
    | Except.error e => exact ⟨false, e, rfl⟩
    | Except.ok args =>
      match h2 : (consumeLines d env.lines).2 with
      | some e =>
        exact ⟨false, e, by simp only [h2]; exact getLast_cons_cons_concat _ _ _ _⟩
      | none =>
        exact ⟨true, "Conversion successful",
          by simp only [h2]; exact getLast_cons_cons_concat _ _ _ _⟩

/-- C1, counterexample: a run in which the transcode process exits with
status 1 and raises nothing still ends in a success outcome (success
flag true), because the method never consults the exit status; the
claim predicts a failure outcome for this run. -/
theorem C1_counterexample :
    (Env.mk (Except.ok 100) [] 1).exitCode ≠ 0 ∧
    runThread reqMp4 (Env.mk (Except.ok 100) [] 1) =
      [Event.probeStart, Event.transcodeStart,
        Event.finished true "Conversion successful"] := by
  constructor
  · decide
  · have hr : resolveArgs reqMp4 =
        Except.ok { vcodec := some "libx264", acodec := some "aac" } := by decide
    rw [runThread_ok_success reqMp4 (Env.mk (Except.ok 100) [] 1) 100
      { vcodec := some "libx264", acodec := some "aac" } rfl hr rfl]
    rfl

/-- C1, amended: the terminal outcome ignores the exit status of the
transcode process; whenever the run reaches the read loop and no
exception is raised there, the single terminal outcome has its success
flag true, whatever the exit status was, and the whole trace is
independent of the exit status. -/
theorem C1_success_despite_abnormal_exit (req : ConversionRequest)
    (d : ℚ) (ls : List String) (c : ℤ) (args : OutputArgs)
    (hr : resolveArgs req = Except.ok args)
    (hc : (consumeLines d ls).2 = none) :
    (runThread req (Env.mk (Except.ok d) ls c)).getLast? =
      some (Event.finished true "Conversion successful") ∧
    runThread req (Env.mk (Except.ok d) ls c) =
      runThread req (Env.mk (Except.ok d) ls 0) := by
  constructor
  · rw [runThread_ok_success req (Env.mk (Except.ok d) ls c) d args rfl hr hc]
    exact getLast_cons_cons_concat _ _ _ _
  · rw [runThread_ok_success req (Env.mk (Except.ok d) ls c) d args rfl hr hc,
      runThread_ok_success req (Env.mk (Except.ok d) ls 0) d args rfl hr hc]

/-- C1, witness for the amended theorem at exit status 1 with an empty
stream. -/
theorem C1_witness :
    (runThread reqMp4 (Env.mk (Except.ok 100) [] 1)).getLast? =
      some (Event.finished true "Conversion successful") ∧
    runThread reqMp4 (Env.mk (Except.ok 100) [] 1) =
      runThread reqMp4 (Env.mk (Except.ok 100) [] 0) :=
  C1_success_despite_abnormal_exit reqMp4 100 [] 1
    { vcodec := some "libx264", acodec := some "aac" } (by decide) rfl

/-- C2: every run emits exactly one finished signal, the trace ends
with it, and a probe failure yields exactly the failure trace with the
probe exception's message and no transcode launch. -/
theorem C2_runner_catches (req : ConversionRequest) (env : Env) :
    finishedCount (runThread req env) = 1 ∧
    (∃ (s : Bool) (m : String),
      (runThread req env).getLast? = some (Event.finished s m)) ∧
    (∀ e, env.probe = Except.error e →
      runThread req env = [Event.probeStart, Event.finished false e] ∧
      Event.transcodeStart ∉ runThread req env) ∧
    (∀ d e, env.probe = Except.ok d → resolveArgs req = Except.error e →
      runThread req env = [Event.probeStart, Event.finished false e]) ∧
    (∀ d args e, env.probe = Except.ok d → resolveArgs req = Except.ok args →
      (consumeLines d env.lines).2 = some e →
      (runThread req env).getLast? = some (Event.finished false e)) := by
  refine ⟨finishedCount_run req env, runThread_last req env, ?_, ?_, ?_⟩
  · intro e he
    have ht := runThread_probe_error req env e he
    exact ⟨ht, by rw [ht]; simp⟩
  · intro d e hp hr
    exact runThread_resolve_error req env d e hp hr
  · intro d args e hp hr hc
    rw [runThread_ok_failure req env d args e hp hr hc]
    exact getLast_cons_cons_concat _ _ _ _

/-- C2, witness: a concrete run whose probe raises "boom". -/
theorem C2_witness :
    runThread reqMp4 (Env.mk (Except.error "boom") [] 0) =
      [Event.probeStart, Event.finished false "boom"] ∧
    Event.transcodeStart ∉ runThread reqMp4 (Env.mk (Except.error "boom") [] 0) :=
  (C2_runner_catches reqMp4 (Env.mk (Except.error "boom") [] 0)).2.2.1 "boom" rfl

/-- C8, counterexample: with an unsupported format the ValueError is
raised only after the probe has run; the trace of a run with format
"xyz" starts with the probe launch, so the failure does not occur
before every external process. -/
theorem C8_counterexample :
    runThread reqXyz (Env.mk (Except.ok 10) [] 0) =
      [Event.probeStart, Event.finished false "Unsupported output format: xyz"] ∧
    (runThread reqXyz (Env.mk (Except.ok 10) [] 0)).head? = some Event.probeStart := by
  have hr : resolveArgs reqXyz =
      Except.error "Unsupported output format: xyz" := by decide
  have ht := runThread_resolve_error reqXyz (Env.mk (Except.ok 10) [] 0) 10 _ rfl hr
  exact ⟨ht, by rw [ht]; rfl⟩

/-- C8, amended: an unsupported target format fails resolution with the
UnsupportedFormat message before the transcode process is started, but
after the probe has run. -/
theorem C8_unsupported_after_probe (req : ConversionRequest) (env : Env) (d : ℚ)
    (h1 : req.output_format ∉ VIDEO_FORMATS)
    (h2 : req.output_format ∉ AUDIO_FORMATS)
    (hp : env.probe = Except.ok d) :
    runThread req env =
      [Event.probeStart,
        Event.finished false ("Unsupported output format: " ++ req.output_format)] ∧
    Event.transcodeStart ∉ runThread req env := by
  have ht := runThread_resolve_error req env d _ hp (resolveArgs_unsupported req h1 h2)
  exact ⟨ht, by rw [ht]; simp⟩

/-- C8, witness at the format "xyz". -/
theorem C8_witness :
    runThread reqXyz (Env.mk (Except.ok 10) [] 0) =
      [Event.probeStart,
        Event.finished false ("Unsupported output format: " ++ reqXyz.output_format)] ∧
    Event.transcodeStart ∉ runThread reqXyz (Env.mk (Except.ok 10) [] 0) :=
  C8_unsupported_after_probe reqXyz (Env.mk (Except.ok 10) [] 0) 10
    (by decide) (by decide) rfl

/-- C9: the signal trace of every run is zero or more progress signals
followed by exactly one finished signal; nothing follows the finished
signal. -/
theorem C9_signal_order (req : ConversionRequest) (env : Env) :
    ∃ (ps : List ℤ) (s : Bool) (m : String),
      runSignals req env = List.map Sig.progress ps ++ [Sig.finished s m] :=
  runSignals_shape req env

/-- C10: a line "out_time_ms=N/A" is not ignored; float() raises, the
run aborts with a failure outcome, and the remaining stream (which
would have completed the transcode) emits no further progress and no
success outcome. -/
theorem C10_bad_value_aborts :
    lineProgress 100 "out_time_ms=N/A" =
      Except.error "could not convert string to float: N/A" ∧
    runThread reqMp4
        (Env.mk (Except.ok 100)
          ["out_time_ms=10000000", "out_time_ms=N/A", "out_time_ms=90000000"] 0) =
      [Event.probeStart, Event.transcodeStart, Event.progress 10,
        Event.finished false "could not convert string to float: N/A"] := by
  have e1 : lineProgress 100 "out_time_ms=10000000" = Except.ok (some 10) :=
    lineProgress_eval 100 _ "10000000" 10000000 10 (by decide) (by decide)
      (by norm_num) (by norm_num [toProgress, pyInt])
  have e2 : lineProgress 100 "out_time_ms=N/A" =
      Except.error "could not convert string to float: N/A" :=
    lineProgress_eval_err 100 _ "N/A" (by decide) (by decide)
  have hr : resolveArgs reqMp4 =
      Except.ok { vcodec := some "libx264", acodec := some "aac" } := by decide
  have hcons : consumeLines 100
      ["out_time_ms=10000000", "out_time_ms=N/A", "out_time_ms=90000000"] =
      ([10], some "could not convert string to float: N/A") := by
    simp [consumeLines, e1, e2]
  refine ⟨e2, ?_⟩
  rw [runThread_ok_failure reqMp4 _ 100
    { vcodec := some "libx264", acodec := some "aac" }
    "could not convert string to float: N/A" rfl hr (by rw [hcons])]
  rw [hcons]
  rfl

/-- C3: for every video-format request whose resolution succeeds both
fixed codecs are set; for every audio-format request resolution
succeeds and the resolved argument set has no video codec and no scale
filter, whatever the optional fields are. -/
theorem C3_codecs (req : ConversionRequest) :
    (req.output_format ∈ VIDEO_FORMATS →
      ∀ args, resolveArgs req = Except.ok args →
        args.vcodec = some "libx264" ∧ args.acodec = some "aac") ∧
    (req.output_format ∈ AUDIO_FORMATS →
      resolvedVcodec req = some none ∧ resolvedVf req = some none) := by
  constructor
  · intro h args ha
    exact resolveArgs_video_fields req args h ha
  · intro h
    rw [resolvedVcodec, resolvedVf, resolveArgs_audio req h]
    exact ⟨rfl, rfl⟩

/-- C3, witness at mp4 and mp3. -/
theorem C3_witness :
    ((OutputArgs.mk none none none (some "libx264") (some "aac")).vcodec =
        some "libx264" ∧
      (OutputArgs.mk none none none (some "libx264") (some "aac")).acodec =
        some "aac") ∧
    (resolvedVcodec reqMp3 = some none ∧ resolvedVf reqMp3 = some none) :=
  ⟨(C3_codecs reqMp4).1 (by decide)
      (OutputArgs.mk none none none (some "libx264") (some "aac")) (by decide),
    (C3_codecs reqMp3).2 (by decide)⟩

/-- C4, counterexample: for the format "aac" the method does set a
format-specific audio codec (line 49-50), while the claim says the
audio codec is left at the container default. -/
theorem C4_counterexample :
    resolveArgs reqAac = Except.ok { acodec := some "aac" } ∧
    resolvedAcodec reqAac = some (some "aac") ∧
    some "aac" ≠ (none : Option String) := by
  exact ⟨by decide, by decide, by decide⟩

/-- C4, amended: the audio-codec lookup sets libmp3lame for mp3,
libvorbis for ogg and aac for aac; only the remaining audio formats
(wav, flac) keep the container default. -/
theorem C4_audio_codec_lookup (req : ConversionRequest)
    (h : req.output_format ∈ AUDIO_FORMATS) :
    resolvedAcodec req = some (audioCodecFor req.output_format) ∧
    ((req.output_format = "wav" ∨ req.output_format = "flac") →
      resolvedAcodec req = some none) := by
  have h1 : resolvedAcodec req = some (audioCodecFor req.output_format) := by
    rw [resolvedAcodec, resolveArgs_audio req h]
    rfl
  refine ⟨h1, ?_⟩
  intro hwf
  rw [h1]
  rcases hwf with h' | h' <;> rw [h'] <;> rfl

/-- C4, witness at the format wav (container default kept). -/
theorem C4_witness :
    resolvedAcodec reqWav = some (audioCodecFor reqWav.output_format) ∧
    ((reqWav.output_format = "wav" ∨ reqWav.output_format = "flac") →
      resolvedAcodec reqWav = some none) :=
  C4_audio_codec_lookup reqWav (by decide)

/-- C5: for an audio-format request the video-only fields are a no-op
(the resolved argument set equals the one with them absent, and
resolution succeeds), and for every request whose resolution succeeds a
truthy audio bitrate is included verbatim. -/
theorem C5_video_fields_noop (req : ConversionRequest) :
    (req.output_format ∈ AUDIO_FORMATS →
      resolveArgs req =
        resolveArgs { req with video_bitrate := none, resolution := none }) ∧
    (∀ args, resolveArgs req = Except.ok args →
      pyTruthy req.audio_bitrate = true →
      args.audio_bitrate = req.audio_bitrate) := by
  constructor
  · intro h
    rw [resolveArgs_audio req h,
      resolveArgs_audio { req with video_bitrate := none, resolution := none } h]
  · intro args ha hab
    rw [resolveArgs_audio_bitrate req args ha, if_pos hab]

/-- C5, witness: an mp3 request carrying a video bitrate, a resolution
and an audio bitrate. -/
theorem C5_witness :
    resolveArgs reqMp3Opts =
      resolveArgs { reqMp3Opts with video_bitrate := none, resolution := none } ∧
    (OutputArgs.mk none (some "192k") none none (some "libmp3lame")).audio_bitrate =
      reqMp3Opts.audio_bitrate :=
  ⟨(C5_video_fields_noop reqMp3Opts).1 (by decide),
    (C5_video_fields_noop reqMp3Opts).2
      (OutputArgs.mk none (some "192k") none none (some "libmp3lame"))
      (by decide) (by decide)⟩

/-- C6, counterexample: for the line "out_time_ms=-500000" with
duration 100 the method emits min(int(-0.5), 100) = 0 (Python int()
truncates toward zero), while the claimed formula
min(floor(v/1000000/d*100), 100) gives -1. -/
theorem C6_counterexample :
    lineProgress 100 "out_time_ms=-500000" = Except.ok (some 0) ∧
    min ⌊(-500000 : ℚ) / 1000000 / 100 * 100⌋ 100 = -1 ∧
    (0 : ℤ) ≠ -1 := by
  refine ⟨?_, ?_, by decide⟩
  · exact lineProgress_eval 100 _ "-500000" (-500000) 0 (by decide) (by decide)
      (by norm_num) (by norm_num [toProgress, pyInt]; decide)
  · rw [Rat.floor_def]
    norm_num

/-- C6, amended: each elapsed-time line with parsed value v and
duration d > 0 emits exactly min(trunc(v/1000000/d*100), 100) where
trunc is Python int() truncation toward zero; for nonnegative v this
equals the claimed floor form, and the concrete scenario (duration
100s, line out_time_ms=50000000) emits 50 followed by exactly one
success outcome. -/
theorem C6_progress_formula (d v : ℚ) (line valStr : String)
    (hd : 0 < d) (h1 : lineKeyVal line = some valStr)
    (h2 : pyFloat? valStr = some v) :
    lineProgress d line =
      Except.ok (some (min (pyInt (v / 1000000 / d * 100)) 100)) ∧
    (0 ≤ v → min (pyInt (v / 1000000 / d * 100)) 100 =
      min ⌊v / 1000000 / d * 100⌋ 100) ∧
    runThread reqMp4 (Env.mk (Except.ok 100) ["out_time_ms=50000000"] 0) =
      [Event.probeStart, Event.transcodeStart, Event.progress 50,
        Event.finished true "Conversion successful"] := by
  refine ⟨?_, ?_, ?_⟩
  · exact lineProgress_eval d line valStr v _ h1 h2 (ne_of_gt hd) rfl
  · intro hv
    have hx : (0:ℚ) ≤ v / 1000000 / d * 100 := by positivity
    rw [pyInt_eq_floor _ hx]
  · have e1 : lineProgress 100 "out_time_ms=50000000" = Except.ok (some 50) :=
      lineProgress_eval 100 _ "50000000" 50000000 50 (by decide) (by decide)
        (by norm_num) (by norm_num [toProgress, pyInt])
    have hr : resolveArgs reqMp4 =
        Except.ok { vcodec := some "libx264", acodec := some "aac" } := by decide
    have hcons : consumeLines 100 ["out_time_ms=50000000"] = ([50], none) := by
      simp [consumeLines, e1]
    rw [runThread_ok_success reqMp4 _ 100
      { vcodec := some "libx264", acodec := some "aac" } rfl hr (by rw [hcons])]
    rw [hcons]
    rfl

/-- C6, witness at duration 100 and the line out_time_ms=50000000. -/
theorem C6_witness :
    lineProgress 100 "out_time_ms=50000000" =
      Except.ok (some (min (pyInt ((50000000 : ℚ) / 1000000 / 100 * 100)) 100)) ∧
    (0 ≤ (50000000 : ℚ) →
      min (pyInt ((50000000 : ℚ) / 1000000 / 100 * 100)) 100 =
        min ⌊(50000000 : ℚ) / 1000000 / 100 * 100⌋ 100) ∧
    runThread reqMp4 (Env.mk (Except.ok 100) ["out_time_ms=50000000"] 0) =
      [Event.probeStart, Event.transcodeStart, Event.progress 50,
        Event.finished true "Conversion successful"] :=
  C6_progress_formula 100 50000000 "out_time_ms=50000000" "50000000"
    (by norm_num) (by decide) (by decide)

/-- C7, counterexample: nothing in the method enforces monotone or
in-range emissions; a stream whose elapsed values decrease emits 50
then 1, and a negative elapsed value emits the negative progress value
-20000, far below the 0-100 range. -/
theorem C7_counterexample :
    runThread reqMp4 (Env.mk (Except.ok 100)
        ["out_time_ms=50000000", "out_time_ms=1000000"] 0) =
      [Event.probeStart, Event.transcodeStart, Event.progress 50,
        Event.progress 1, Event.finished true "Conversion successful"] ∧
    ¬ (50 : ℤ) ≤ 1 ∧
    runThread reqMp4 (Env.mk (Except.ok 100) ["out_time_ms=-20000000000"] 0) =
      [Event.probeStart, Event.transcodeStart, Event.progress (-20000),
        Event.finished true "Conversion successful"] ∧
    ¬ (0 : ℤ) ≤ -20000 := by
  have hr : resolveArgs reqMp4 =
      Except.ok { vcodec := some "libx264", acodec := some "aac" } := by decide
  have e1 : lineProgress 100 "out_time_ms=50000000" = Except.ok (some 50) :=
    lineProgress_eval 100 _ "50000000" 50000000 50 (by decide) (by decide)
      (by norm_num) (by norm_num [toProgress, pyInt])
  have e2 : lineProgress 100 "out_time_ms=1000000" = Except.ok (some 1) :=
    lineProgress_eval 100 _ "1000000" 1000000 1 (by decide) (by decide)
      (by norm_num) (by norm_num [toProgress, pyInt])
  have e3 : lineProgress 100 "out_time_ms=-20000000000" =
      Except.ok (some (-20000)) :=
    lineProgress_eval 100 _ "-20000000000" (-20000000000) (-20000) (by decide)
      (by decide) (by norm_num) (by norm_num [toProgress, pyInt])
  have hc1 : consumeLines 100 ["out_time_ms=50000000", "out_time_ms=1000000"] =
      ([50, 1], none) := by
    simp [consumeLines, e1, e2]
  have hc2 : consumeLines 100 ["out_time_ms=-20000000000"] =
      ([-20000], none) := by
    simp [consumeLines, e3]
  refine ⟨?_, by decide, ?_, by decide⟩
  · rw [runThread_ok_success reqMp4 _ 100
      { vcodec := some "libx264", acodec := some "aac" } rfl hr (by rw [hc1])]
    rw [hc1]
    rfl
  · rw [runThread_ok_success reqMp4 _ 100
      { vcodec := some "libx264", acodec := some "aac" } rfl hr (by rw [hc2])]
    rw [hc2]
    rfl

/-- A line result carrying a progress value is always a clamped
toProgress value. -/
theorem lineProgress_ok_toProgress (d : ℚ) (line : String) (p : ℤ)
    (h : lineProgress d line = Except.ok (some p)) :
    ∃ v, p = toProgress d v := by
  rw [lineProgress] at h
  split at h
  · simp at h
  · split at h
    · rename_i v hv
      split at h
      · simp at h
      · simp only [Except.ok.injEq, Option.some.injEq] at h
        exact ⟨v, h.symm⟩
    · simp at h

/-- Every value the read loop emits is at most 100, for every duration
(including a zero duration, where matching lines raise instead of
emitting). -/
theorem consumeLines_le_100 (d : ℚ) :
    ∀ ls : List String, ∀ p ∈ (consumeLines d ls).1, p ≤ 100
  | [] => by simp [consumeLines]
  | l :: ls => by
    intro p hp
    rw [consumeLines] at hp
    match hl : lineProgress d l with
    | Except.error e =>
      rw [hl] at hp
      simp at hp
    | Except.ok none =>
      rw [hl] at hp
      exact consumeLines_le_100 d ls p hp
    | Except.ok (some q) =>
      rw [hl] at hp
      simp only [List.mem_cons] at hp
      rcases hp with rfl | hp
      · obtain ⟨v, rfl⟩ := lineProgress_ok_toProgress d l p hl
        exact toProgress_le_100 d v
      · exact consumeLines_le_100 d ls p hp

/-- C7, amended: every emitted progress value of every run is at most
100 unconditionally (the clamp the method enforces for arbitrary
streams); provided additionally that the stream's parsed elapsed-time
values are non-decreasing and nonnegative and the probed duration is
positive, the emitted values are non-decreasing and lie within
0-100. -/
theorem C7_bounded_monotone (req : ConversionRequest) (env : Env) :
    (∀ p ∈ progressVals (runThread req env), p ≤ 100) ∧
    (∀ d, env.probe = Except.ok d → 0 < d →
      List.Chain' (· ≤ ·) (env.lines.filterMap lineVal?) →
      (∀ v ∈ env.lines.filterMap lineVal?, 0 ≤ v) →
      List.Chain' (· ≤ ·) (progressVals (runThread req env)) ∧
      ∀ p ∈ progressVals (runThread req env), 0 ≤ p ∧ p ≤ 100) := by
  constructor
  · intro p hp
    rcases progressVals_run req env with h | ⟨d, hpd, h⟩
    · rw [h] at hp
      simp at hp
    · rw [h] at hp
      exact consumeLines_le_100 d env.lines p hp
  · intro d hp hd hmono hpos
    rcases progressVals_run req env with h | ⟨d', hpd, h⟩
    · rw [h]
      exact ⟨List.chain'_nil, by simp⟩
    · have hdd : d' = d := by
        rw [hpd] at hp
        exact Except.ok.inj hp
      subst hdd
      obtain ⟨pre, hsub, hout⟩ := consumeLines_sub d' (ne_of_gt hd) env.lines
      rw [h, hout]
      have hpre_pos : ∀ v ∈ pre, 0 ≤ v := fun v hv => hpos v (hsub.subset hv)
      have hpre_chain : List.Chain' (· ≤ ·) pre := hmono.sublist hsub
      refine ⟨chain_map_toProgress d' hd pre hpre_chain hpre_pos, ?_⟩
      intro p hp'
      obtain ⟨v, hv, rfl⟩ := List.mem_map.mp hp'
      exact ⟨toProgress_nonneg d' v hd (hpre_pos v hv), toProgress_le_100 d' v⟩

/-- C7, witness: the unconditional bound at a run with a decreasing,
partly negative stream, and the monotone conclusion at a monotone
nonnegative stream with duration 100. -/
theorem C7_witness :
    (∀ p ∈ progressVals (runThread reqMp4
      (Env.mk (Except.ok 100)
        ["out_time_ms=50000000", "out_time_ms=-20000000000"] 0)), p ≤ 100) ∧
    (List.Chain' (· ≤ ·) (progressVals (runThread reqMp4
      (Env.mk (Except.ok 100) ["out_time_ms=10000000"] 0))) ∧
    ∀ p ∈ progressVals (runThread reqMp4
      (Env.mk (Except.ok 100) ["out_time_ms=10000000"] 0)),
      0 ≤ p ∧ p ≤ 100) :=
  ⟨(C7_bounded_monotone reqMp4
      (Env.mk (Except.ok 100)
        ["out_time_ms=50000000", "out_time_ms=-20000000000"] 0)).1,
    (C7_bounded_monotone reqMp4
      (Env.mk (Except.ok 100) ["out_time_ms=10000000"] 0)).2 100 rfl (by norm_num)
      (by
        have v1 : lineVal? "out_time_ms=10000000" = some 10000000 := by decide
        simp [List.filterMap_cons, v1])
      (by
        have v1 : lineVal? "out_time_ms=10000000" = some 10000000 := by decide
        simp [List.filterMap_cons, v1])⟩
